import Mathlib

/-!
Shallow embedding of the `notebook_utils` helper module of the
openvino_notebooks repository, together with theorems settling the claims
about it.  Python/numpy/OpenCV operations are translated into executable
Lean definitions: numpy arrays become lists (flattened, row-major, with an
explicit shape), machine bytes become naturals reduced modulo 256 where the
code casts to uint8, fallible code returns `Except`, and the ambient world
(HTTP responses, the local filesystem, the inference-engine runtime) is
passed explicitly as state.
-/

/-- Python exception kinds that the modelled code can raise. -/
inductive PyErr where
  | valueError
  | indexError
  | cvError
  | unboundLocal
  | httpException
  deriving DecidableEq, Repr

deriving instance DecidableEq for Except

/- ## Images: pixel conversions (`to_rgb`, `to_bgr`, `normalize_minmax`) -/

/-- A pixel with three colour channels. -/
abbrev Pixel := Nat × Nat × Nat

/-- Model of `cv2.cvtColor(image, COLOR_BGR2RGB)` / `COLOR_RGB2BGR` at one
pixel: both conversions swap the first and third channel. -/
def swapChannels (p : Pixel) : Pixel := (p.2.2, p.2.1, p.1)

/-- `to_rgb` from the source: convert `image_data` from BGR to RGB
(`cv2.cvtColor` with `COLOR_BGR2RGB`, a per-pixel channel swap). -/
def to_rgb (image_data : List (List Pixel)) : List (List Pixel) :=
  image_data.map (List.map swapChannels)

/-- `to_bgr` from the source: convert `image_data` from RGB to BGR
(`cv2.cvtColor` with `COLOR_RGB2BGR`, the same per-pixel channel swap). -/
def to_bgr (image_data : List (List Pixel)) : List (List Pixel) :=
  image_data.map (List.map swapChannels)

/-- `normalize_minmax` from the source, with the array values modelled as
exact rationals.  `data.max() == data.min()` raises `ValueError`; numpy's
`max`/`min` on an empty array also raise `ValueError` (zero-size reduction),
which the `none` branch models.  Otherwise the result is
`(data - data.min()) / (data.max() - data.min())`, elementwise. -/
def normalize_minmax (data : List ℚ) : Except PyErr (List ℚ) :=
  match data.max?, data.min? with
  | some M, some m =>
      if M = m then Except.error PyErr.valueError
      else Except.ok (data.map fun x => (x - m) / (M - m))
  | _, _ => Except.error PyErr.valueError

/- ## Files: `download_file` and `download_ir_model` -/

/-- What one HTTP GET of a url yields: the body bytes, the filename from a
`Content-Disposition` header if any (`urlobject.info().get_filename()`), the
`Content-Length` header if present, and whether the request fails with an
`HTTPError`. -/
structure Response where
  content : List Nat
  headerFilename : Option String
  contentLength : Option Nat
  httpError : Bool
  deriving DecidableEq, Repr

/-- The local filesystem, as the association of paths to file bytes. -/
structure FS where
  files : List (String × List Nat)
  deriving DecidableEq, Repr

/-- The stored bytes of a path, `none` when the file does not exist. -/
def lookupFile (fs : FS) (path : String) : Option (List Nat) :=
  (fs.files.find? fun e => decide (e.1 = path)).map Prod.snd

/-- Writing a file: the new entry shadows any previous one for `path`. -/
def setFile (fs : FS) (path : String) (content : List Nat) : FS :=
  ⟨(path, content) :: fs.files.filter fun e => !decide (e.1 = path)⟩

/-- The characters before the first `?` (query) or `#` (fragment), i.e. the
part of the url that `urllib.parse.urlparse` keeps in `.path` together with
the scheme and host. -/
def preQuery : List Char → List Char
  | [] => []
  | x :: xs => if x = '?' ∨ x = '#' then [] else x :: preQuery xs

/-- The characters after the last `/` (the whole list when there is none). -/
def lastSeg (cs : List Char) : List Char :=
  cs.foldl (fun acc x => if x = '/' then [] else acc ++ [x]) []

/-- `Path(urllib.parse.urlparse(url).path).name`: the last `/`-separated
segment of the url once the fragment and query are stripped. -/
def urlBasename (url : String) : String :=
  String.mk (lastSeg (preQuery url.data))

/-- The test `len(Path(filename).parts) > 1`: a `pathlib` path has more than
one part exactly when the name contains a `/` separator. -/
def multiPart (filename : String) : Bool :=
  filename.data.contains '/'

/-- The filename `download_file` computes when none is given: the header
filename when present and non-empty (Python's `or`), else the url's
basename. -/
def computedName (remote : String → Response) (url : String) : String :=
  match (remote url).headerFilename with
  | some s => if s = "" then urlBasename url else s
  | none => urlBasename url

/-- The local path a download (with no explicit filename) lands on: the
computed filename, prefixed with the directory when one is given. -/
def targetPath (remote : String → Response) (url : String)
    (directory : Option String) : String :=
  match directory with
  | none => computedName remote url
  | some d => d ++ "/" ++ computedName remote url

/-- Errors `download_file` can raise: the `Exception` re-raised from an
`HTTPError`, the `ValueError` for a multi-part filename, and the Python
`UnboundLocalError` hit when `urlobject` is read on a path that never
assigned it. -/
inductive DlErr where
  | httpException
  | valueError
  | unboundLocal
  deriving DecidableEq, Repr

/-- The outcome of a download call: the filesystem afterwards, the returned
(resolved) path, and the urls fetched with `urllib.request.urlretrieve`, in
order.  `Path.resolve` is modelled as the identity on these abstract
paths. -/
structure DlResult where
  fs : FS
  path : String
  retrieved : List String
  deriving DecidableEq, Repr

/-- `download_file` from the source, the world passed as state.  With
`filename=None` it GETs the url (re-raising an `HTTPError` as `Exception`),
takes the header filename when present and non-empty (Python's `or`) and the
url basename otherwise, rejects a filename of more than one path part,
prefixes the directory when given, and then re-downloads with a single
plain `urlretrieve` GET — no Range header, no resume — exactly when the
target is absent or its size differs from the reported `Content-Length`
(absent header read as 0).  With a provided `filename` the url is never
opened, so the later unconditional read of `urlobject` for the
`Content-Length` raises `UnboundLocalError` (after the multi-part filename
check, which comes first). -/
def download_file (remote : String → Response) (fs : FS) (url : String)
    (filename : Option String) (directory : Option String) :
    Except DlErr DlResult :=
  match filename with
  | some f =>
      if multiPart f then Except.error DlErr.valueError
      else Except.error DlErr.unboundLocal
  | none =>
      if (remote url).httpError then Except.error DlErr.httpException
      else
        if multiPart (computedName remote url) then Except.error DlErr.valueError
        else
          match lookupFile fs (targetPath remote url directory) with
          | some stored =>
              if stored.length = (remote url).contentLength.getD 0 then
                Except.ok ⟨fs, targetPath remote url directory, []⟩
              else
                Except.ok ⟨setFile fs (targetPath remote url directory)
                  (remote url).content, targetPath remote url directory, [url]⟩
          | none =>
              Except.ok ⟨setFile fs (targetPath remote url directory)
                (remote url).content, targetPath remote url directory, [url]⟩

/-- `model_bin_url = model_xml_url[:-4] + ".bin"`: the weights url is the
model url with its last four characters replaced by `".bin"`. -/
def binUrlOf (model_xml_url : String) : String :=
  String.mk (model_xml_url.data.take (model_xml_url.data.length - 4)) ++ ".bin"

/-- `download_ir_model` from the source: both the xml file at the given url
and the bin file at `binUrlOf` go through `download_file` with the same
destination folder and no explicit filename, and the returned path is the
xml file's. -/
def download_ir_model (remote : String → Response) (fs : FS)
    (model_xml_url : String) (destination_folder : Option String) :
    Except DlErr DlResult :=
  let model_bin_url := binUrlOf model_xml_url
  match download_file remote fs model_xml_url none destination_folder with
  | Except.error e => Except.error e
  | Except.ok r1 =>
      match download_file remote r1.fs model_bin_url none destination_folder with
      | Except.error e => Except.error e
      | Except.ok r2 => Except.ok ⟨r2.fs, r1.path, r1.retrieved ++ r2.retrieved⟩

/- ## Visualization: `segmentation_map_to_image` -/

/-- Build an `h × w` grid from a cell function. -/
def buildGrid (h w : Nat) (f : Nat → Nat → α) : List (List α) :=
  (List.range h).map fun i => (List.range w).map fun j => f i j

/-- Cell lookup in a grid, with a default for out-of-range indices. -/
def getCell (g : List (List α)) (dflt : α) (i j : Nat) : α :=
  (g.getD i []).getD j dflt

/-- The contour retrieval mode handed to `cv2.findContours`:
`RETR_EXTERNAL` when `remove_holes` is true, `RETR_TREE` otherwise. -/
inductive ContourMode where
  | external
  | tree
  deriving DecidableEq, Repr

/-- One expansion step of 4-connected reachability through background cells
(`bg` true): a cell joins the reached set `R` when it is background and a
4-neighbour is already reached. -/
def reachStep (h w : Nat) (bg R : List (List Bool)) : List (List Bool) :=
  buildGrid h w fun i j =>
    getCell R false i j ||
      (getCell bg false i j &&
        (getCell R false (i + 1) j || getCell R false i (j + 1) ||
          (decide (0 < i) && getCell R false (i - 1) j) ||
          (decide (0 < j) && getCell R false i (j - 1))))

/-- The background cells on the image border, where 4-connected reachability
from outside the image starts. -/
def reachInit (h w : Nat) (bg : List (List Bool)) : List (List Bool) :=
  buildGrid h w fun i j =>
    getCell bg false i j &&
      (decide (i = 0) || decide (j = 0) || decide (i + 1 = h) || decide (j + 1 = w))

/-- All background cells 4-connected to the image border: the expansion step
iterated to its fixpoint (`h * w` steps suffice on an `h × w` grid). -/
def reachBorder (h w : Nat) (bg : List (List Bool)) : List (List Bool) :=
  Nat.iterate (reachStep h w bg) (h * w) (reachInit h w bg)

/-- Model of `cv2.findContours` followed by `cv2.drawContours(...,
contourIdx=-1, thickness=cv2.FILLED)` on a binary mask: drawing every
detected contour filled covers every mask pixel and every pixel enclosed by
the mask, i.e. every pixel with no 4-connected background path to the image
border (OpenCV traces foreground with 8-connectivity and background with
4-connectivity).  When a component has a hole, filling its outer contour
already paints the hole, so `RETR_EXTERNAL` (outer contours only) and
`RETR_TREE` (the full hierarchy, whose hole contours are repainted inside
the outer fill) cover the same set of pixels; the mode is kept as an
argument because the source selects it from `remove_holes`. -/
def contourFill (_mode : ContourMode) (h w : Nat) (mask : List (List Bool)) :
    List (List Bool) :=
  let bg := buildGrid h w fun i j => !getCell mask false i j
  let r := reachBorder h w bg
  buildGrid h w fun i j => !getCell r false i j

/-- The binary mask `result == label_index` of one class. -/
def classMask (h w : Nat) (result : List (List Nat)) (c : Nat) : List (List Bool) :=
  buildGrid h w fun i j => decide (getCell result 0 i j = c)

/-- Writing a colour into a `uint8` image: each channel is
`saturate_cast<uchar>`, clamped at 255. -/
def storeColor (c : Pixel) : Pixel := (min c.1 255, min c.2.1 255, min c.2.2 255)

/-- Painting one class into the running image: pixels covered by the filled
contours take the class colour, all others keep their previous value. -/
def overwrite (h w : Nat) (img : List (List Pixel)) (cover : List (List Bool))
    (color : Pixel) : List (List Pixel) :=
  buildGrid h w fun i j =>
    if getCell cover false i j then storeColor color else getCell img (0, 0, 0) i j

/-- The body of the `for label_index, color in enumerate(colormap)` loop of
`segmentation_map_to_image`: fill the detected contours of this class's
binary mask with the class colour. -/
def paintStep (mode : ContourMode) (h w : Nat) (result : List (List Nat))
    (img : List (List Pixel)) (p : Nat × Pixel) : List (List Pixel) :=
  overwrite h w img (contourFill mode h w (classMask h w result p.1)) p.2

/-- The `np.zeros((H, W, 3), dtype=np.uint8)` starting image. -/
def zeroImage (h w : Nat) : List (List Pixel) := buildGrid h w fun _ _ => (0, 0, 0)

/-- The colour-mapping loop of `segmentation_map_to_image`: starting from
the zero (black) image, iterate over the colormap rows in increasing
class-index order, painting each class's filled contours. -/
def segLoop (mode : ContourMode) (h w : Nat) (result : List (List Nat))
    (colormap : List Pixel) : List (List Pixel) :=
  colormap.enum.foldl (paintStep mode h w result) (zeroImage h w)

/-- `contour_mode = cv2.RETR_EXTERNAL if remove_holes else cv2.RETR_TREE`. -/
def modeOf (remove_holes : Bool) : ContourMode :=
  if remove_holes then ContourMode.external else ContourMode.tree

/-- A numpy array of naturals: a shape and the flattened row-major data. -/
structure NDArray where
  shape : List Nat
  data : List Nat
  deriving DecidableEq, Repr

/-- Row-major view of flattened data as an `h × w` matrix. -/
def toMatrix (h w : Nat) (data : List Nat) : List (List Nat) :=
  buildGrid h w fun i j => data.getD (i * w + j) 0

/-- The shape test `if len(result.shape) != 2 and result.shape[0] != 1` of
`segmentation_map_to_image`: `and` short-circuits, so `result.shape[0]` is
read (an `IndexError` for a rank-0 array) only when the rank is not 2. -/
def shapeCheck (shape : List Nat) : Except PyErr Unit :=
  if shape.length = 2 then Except.ok ()
  else
    match shape.head? with
    | none => Except.error PyErr.indexError
    | some s0 => if s0 = 1 then Except.ok () else Except.error PyErr.valueError

/-- `segmentation_map_to_image` from the source.  After the shape test, a
`ValueError` when the number of distinct values exceeds the number of
colormap rows; otherwise a leading axis of length 1 is squeezed away, the
data is cast to `uint8` (values reduced modulo 256) and the per-class
colour-mapping loop runs.  The stages after the squeeze are modelled by the
remaining rank: rank 2 runs the loop; rank 0 or 1 hits
`np.zeros((result.shape[0], result.shape[1], 3))`, an `IndexError`; a rank
of 3 or more is rejected by `cv2.findContours`, which accepts only 2-D
single-channel arrays (arrays with trailing singleton axes are not
distinguished by this model). -/
def segmentation_map_to_image (result : NDArray) (colormap : List Pixel)
    (remove_holes : Bool) : Except PyErr (List (List Pixel)) := do
  shapeCheck result.shape
  if result.data.dedup.length > colormap.length then
    Except.error PyErr.valueError
  else
    let shape1 := if result.shape.headD 0 = 1 then result.shape.tail else result.shape
    let data1 := result.data.map (· % 256)
    let mode := modeOf remove_holes
    match shape1 with
    | [h, w] => Except.ok (segLoop mode h w (toMatrix h w data1) colormap)
    | _ :: _ :: _ :: _ => Except.error PyErr.cvError
    | _ => Except.error PyErr.indexError

/-- The reference mapping named by the spec: a per-pixel colour lookup
table, every pixel taking the colormap row of its class index. -/
def lutImage (h w : Nat) (result : List (List Nat)) (colormap : List Pixel) :
    List (List Pixel) :=
  buildGrid h w fun i j => colormap.getD (getCell result 0 i j) (0, 0, 0)

/- ## Checks and alerts (`NotebookAlert`, `DeviceNotFoundAlert`,
`check_device`, `check_openvino_version`) -/

/-- The ambient inference-engine runtime, passed explicitly: the device list
reported by `IECore().available_devices` and the version string reported by
`openvino.inference_engine.get_version()`. -/
structure Runtime where
  available_devices : List String
  installed_version : String

/-- An alert box as the source's `NotebookAlert` constructs it: a message and
a styling class (`info`, `warning`, `success`, `danger`). -/
structure NotebookAlert where
  message : String
  alert_class : String
  deriving DecidableEq, Repr

/-- The message built by `DeviceNotFoundAlert.__init__`: it names the
requested device and lists the runtime's available devices (singular wording
for exactly one available device, `", ".join` otherwise). -/
def deviceNotFoundMessage (rt : Runtime) (device : String) : String :=
  "Running this cell requires a " ++ device ++
    " device, which is not available on this system. " ++
    (if rt.available_devices.length = 1 then
      "The following device is available: " ++ rt.available_devices.headD ""
    else
      "The following devices are available: " ++
        String.intercalate ", " rt.available_devices)

/-- The trailing part of the device alert: the listing of the runtime's
available devices, as `DeviceNotFoundAlert.__init__` formats it. -/
def deviceListText (rt : Runtime) : String :=
  if rt.available_devices.length = 1 then
    "The following device is available: " ++ rt.available_devices.headD ""
  else
    "The following devices are available: " ++
      String.intercalate ", " rt.available_devices

/-- `DeviceNotFoundAlert` from the source: a `NotebookAlert` with the device
message and the `warning` class. -/
def DeviceNotFoundAlert (rt : Runtime) (device : String) : NotebookAlert :=
  ⟨deviceNotFoundMessage rt device, "warning"⟩

/-- `check_device` from the source: `True` when `device` is in
`IECore().available_devices`; otherwise a `DeviceNotFoundAlert` is
constructed (returned here as the second component) and the result is
`False`. -/
def check_device (rt : Runtime) (device : String) : Bool × Option NotebookAlert :=
  if device ∈ rt.available_devices then (true, none)
  else (false, some (DeviceNotFoundAlert rt device))

/-- A contiguous occurrence of `needle` somewhere in `haystack`. -/
def occursIn (needle : List Char) : List Char → Bool
  | [] => needle.isEmpty
  | h :: t => needle.isPrefixOf (h :: t) || occursIn needle t

/-- Python's `needle in haystack` on strings: substring containment. -/
def pySubstr (needle haystack : String) : Bool :=
  occursIn needle.data haystack.data

/-- The message shown by `check_openvino_version` when the requested version
is not installed (single quotes written as `\x27`). -/
def versionAlertMessage (version installed : String) : String :=
  "This notebook requires OpenVINO " ++ version ++
    ". The version on your system is: <i>" ++ installed ++ "</i>.<br>" ++
    "Please run <span style=\x27font-family:monospace\x27>pip install --upgrade -r requirements.txt</span> " ++
    "in the openvino_env environment to install this version. " ++
    "See the <a href=\x27https://github.com/openvinotoolkit/openvino_notebooks\x27>" ++
    "OpenVINO Notebooks README</a> for detailed instructions"

/-- `check_openvino_version` from the source: `True` when `version` occurs in
the installed version string (Python's `in`), otherwise a danger-class
`NotebookAlert` is shown and the result is `False`. -/
def check_openvino_version (rt : Runtime) (version : String) :
    Bool × Option NotebookAlert :=
  if pySubstr version rt.installed_version then (true, none)
  else (false, some ⟨versionAlertMessage version rt.installed_version, "danger"⟩)

/-! ## Theorems -/

/- ### Helper lemmas -/

theorem occursIn_iff_infix (needle haystack : List Char) :
    occursIn needle haystack = true ↔ needle <:+: haystack := by
  induction haystack with
  | nil =>
      simp [occursIn, List.isEmpty_iff]
  | cons h t ih =>
      simp [occursIn, List.infix_cons_iff, List.isPrefixOf_iff_prefix, ih]

/-- C10: `to_rgb` (BGR to RGB) and `to_bgr` (RGB to BGR) are mutually
inverse per-pixel channel swaps: either round trip is the identity on every
3-channel image. -/
theorem to_rgb_to_bgr_inverse (image : List (List Pixel)) :
    to_bgr (to_rgb image) = image ∧ to_rgb (to_bgr image) = image := by
  have hp : ∀ p : Pixel, swapChannels (swapChannels p) = p := fun _ => rfl
  constructor <;>
    simp [to_rgb, to_bgr, List.map_map, Function.comp_def, hp]

/-- C5: `check_device` returns `True` exactly when the device is in the
runtime's available-device list; when it returns `False` it constructs a
`DeviceNotFoundAlert` (warning class) whose message names the requested
device and ends with the listing of the available devices. -/
theorem check_device_spec (rt : Runtime) (device : String) :
    ((check_device rt device).1 = true ↔ device ∈ rt.available_devices) ∧
    ((check_device rt device).2 =
      if device ∈ rt.available_devices then none
      else some (DeviceNotFoundAlert rt device)) ∧
    (DeviceNotFoundAlert rt device).alert_class = "warning" ∧
    (DeviceNotFoundAlert rt device).message =
      "Running this cell requires a " ++ device ++
        " device, which is not available on this system. " ++ deviceListText rt := by
  refine ⟨?_, ?_, rfl, ?_⟩
  · by_cases hmem : device ∈ rt.available_devices <;> simp [check_device, hmem]
  · by_cases hmem : device ∈ rt.available_devices <;> simp [check_device, hmem]
  · show deviceNotFoundMessage rt device = _
    unfold deviceNotFoundMessage deviceListText
    by_cases h1 : rt.available_devices.length = 1 <;> simp [h1]

/-- C6: `check_openvino_version` returns `True` exactly when the requested
version occurs as a substring of the installed version string; otherwise the
second component is the danger-class `NotebookAlert` it shows. -/
theorem check_openvino_version_spec (rt : Runtime) (version : String) :
    ((check_openvino_version rt version).1 = true ↔
      version.data <:+: rt.installed_version.data) ∧
    ((check_openvino_version rt version).2 =
      if version.data <:+: rt.installed_version.data then none
      else some ⟨versionAlertMessage version rt.installed_version, "danger"⟩) := by
  have hiff := occursIn_iff_infix version.data rt.installed_version.data
  by_cases hin : version.data <:+: rt.installed_version.data
  · have hb : pySubstr version rt.installed_version = true := by
      unfold pySubstr; exact hiff.mpr hin
    simp [check_openvino_version, hb, hin]
  · have hb : pySubstr version rt.installed_version = false := by
      unfold pySubstr
      exact (Bool.not_eq_true _).mp fun hx => hin (hiff.mp hx)
    simp [check_openvino_version, hb, hin]

/-- C2: the claim describes the documented behaviour (an existing file of
the right size is kept and its path returned), but the code only assigns
`urlobject` inside the `filename is None` branch and reads it
unconditionally for the `Content-Length`, so every call with an explicit
`filename` raises `UnboundLocalError` before the size comparison.  At this
failing input the target file exists and its size (4) equals the reported
`Content-Length` (4), yet the call errors instead of returning the path. -/
theorem download_file_unbound_local_eval :
    lookupFile ⟨[("data.bin", [7, 7, 7, 7])]⟩ "data.bin" = some [7, 7, 7, 7] ∧
    (fun _ : String => (⟨[7, 7, 7, 7], none, some 4, false⟩ : Response))
        "http://host/data.bin" = ⟨[7, 7, 7, 7], none, some 4, false⟩ ∧
    download_file (fun _ => ⟨[7, 7, 7, 7], none, some 4, false⟩)
        ⟨[("data.bin", [7, 7, 7, 7])]⟩ "http://host/data.bin"
        (some "data.bin") none =
      Except.error DlErr.unboundLocal :=
  ⟨rfl, rfl, by decide⟩

/-- C9: `normalize_minmax` raises `ValueError` exactly when every element of
`data` equals every other (`data.max() == data.min()`; numpy's reduction on
an empty array also raises `ValueError`, matching the vacuous case);
otherwise it returns `(data - data.min()) / (data.max() - data.min())`
elementwise, whose values lie in `[0, 1]` with both endpoints attained.  The
definition is a pure function of `data`, so the input list is unchanged. -/
theorem normalize_minmax_spec (data : List ℚ) :
    (normalize_minmax data = Except.error PyErr.valueError ↔
      ∀ x ∈ data, ∀ y ∈ data, x = y) ∧
    (∀ out, normalize_minmax data = Except.ok out →
      ∃ m M, data.min? = some m ∧ data.max? = some M ∧
        out = data.map (fun x => (x - m) / (M - m)) ∧
        (0 : ℚ) ∈ out ∧ (1 : ℚ) ∈ out ∧ ∀ y ∈ out, 0 ≤ y ∧ y ≤ 1) := by
  rcases hM : data.max? with _ | M
  · have hnil : data = [] := List.max?_eq_none_iff.mp hM
    subst hnil
    constructor
    · simp [normalize_minmax]
    · intro out hout
      simp [normalize_minmax] at hout
  · rcases hm : data.min? with _ | m
    · have hnil : data = [] := List.min?_eq_none_iff.mp hm
      subst hnil
      simp at hM
    · have hMmem : M ∈ data := List.max?_mem max_choice hM
      have hmmem : m ∈ data := List.min?_mem min_choice hm
      have hMub : ∀ b ∈ data, b ≤ M := fun b hb =>
        ((List.max?_le_iff (fun _ _ _ => max_le_iff) hM).mp le_rfl) b hb
      have hmlb : ∀ b ∈ data, m ≤ b := fun b hb =>
        ((List.le_min?_iff (fun _ _ _ => le_min_iff) hm).mp le_rfl) b hb
      have hrun : normalize_minmax data =
          if M = m then Except.error PyErr.valueError
          else Except.ok (data.map fun x => (x - m) / (M - m)) := by
        unfold normalize_minmax
        rw [hM, hm]
      rw [hrun]
      by_cases heq : M = m
      · subst heq
        rw [if_pos rfl]
        constructor
        · constructor
          · intro _ x hx y hy
            have h1 : x = M := le_antisymm (hMub x hx) (hmlb x hx)
            have h2 : y = M := le_antisymm (hMub y hy) (hmlb y hy)
            rw [h1, h2]
          · intro _
            rfl
        · intro out hout
          cases hout
      · rw [if_neg heq]
        have hlt : m < M := lt_of_le_of_ne (hmlb M hMmem) fun h => heq h.symm
        have hpos : (0 : ℚ) < M - m := sub_pos.mpr hlt
        constructor
        · constructor
          · intro h
            cases h
          · intro hall
            exact absurd (hall M hMmem m hmmem) heq
        · intro out hout
          injection hout with hinj
          refine ⟨m, M, rfl, rfl, hinj.symm, ?_, ?_, ?_⟩
          · rw [← hinj]
            exact List.mem_map.mpr ⟨m, hmmem, by rw [sub_self, zero_div]⟩
          · rw [← hinj]
            exact List.mem_map.mpr ⟨M, hMmem, div_self (ne_of_gt hpos)⟩
          · intro y hy
            rw [← hinj] at hy
            obtain ⟨x, hx, rfl⟩ := List.mem_map.mp hy
            exact ⟨div_nonneg (sub_nonneg.mpr (hmlb x hx)) (le_of_lt hpos),
              (div_le_one hpos).mpr (sub_le_sub_right (hMub x hx) m)⟩

theorem find?_filter_ne (l : List (String × List Nat)) (path p : String)
    (hne : p ≠ path) :
    (l.filter fun e => !decide (e.1 = path)).find? (fun e => decide (e.1 = p)) =
      l.find? fun e => decide (e.1 = p) := by
  induction l with
  | nil => rfl
  | cons e t ih =>
      by_cases h1 : e.1 = path
      · have h2 : ¬e.1 = p := fun hx => hne (hx.symm.trans h1)
        have hf : (e :: t).filter (fun x => !decide (x.1 = path)) =
            t.filter fun x => !decide (x.1 = path) := by
          simp [List.filter_cons, h1]
        rw [hf, ih, List.find?_cons_of_neg _ (by simp [h2])]
      · have hf : (e :: t).filter (fun x => !decide (x.1 = path)) =
            e :: t.filter fun x => !decide (x.1 = path) := by
          simp [List.filter_cons, h1]
        by_cases h2 : e.1 = p
        · rw [hf, List.find?_cons_of_pos _ (by simp [h2]),
            List.find?_cons_of_pos _ (by simp [h2])]
        · rw [hf, List.find?_cons_of_neg _ (by simp [h2]), ih,
            List.find?_cons_of_neg _ (by simp [h2])]

theorem lookupFile_setFile_self (fs : FS) (path : String) (c : List Nat) :
    lookupFile (setFile fs path c) path = some c := by
  simp [lookupFile, setFile]

theorem lookupFile_setFile_other (fs : FS) (path p : String) (c : List Nat)
    (hne : p ≠ path) :
    lookupFile (setFile fs path c) p = lookupFile fs p := by
  unfold lookupFile setFile
  rw [List.find?_cons_of_neg, find?_filter_ne fs.files path p hne]
  simp
  exact fun hx => hne hx.symm

theorem download_file_none_run (remote : String → Response) (fs : FS)
    (url : String) (directory : Option String)
    (hok : (remote url).httpError = false)
    (hname : multiPart (computedName remote url) = false) :
    download_file remote fs url none directory =
      match lookupFile fs (targetPath remote url directory) with
      | some stored =>
          if stored.length = (remote url).contentLength.getD 0 then
            Except.ok ⟨fs, targetPath remote url directory, []⟩
          else
            Except.ok ⟨setFile fs (targetPath remote url directory)
              (remote url).content, targetPath remote url directory, [url]⟩
      | none =>
          Except.ok ⟨setFile fs (targetPath remote url directory)
            (remote url).content, targetPath remote url directory, [url]⟩ := by
  unfold download_file
  rw [hok, hname]
  simp

theorem download_file_get_run (remote : String → Response) (fs : FS)
    (url : String) (directory : Option String)
    (hok : (remote url).httpError = false)
    (hname : multiPart (computedName remote url) = false)
    (hmiss : lookupFile fs (targetPath remote url directory) = none ∨
      ∃ stored, lookupFile fs (targetPath remote url directory) = some stored ∧
        stored.length ≠ (remote url).contentLength.getD 0) :
    download_file remote fs url none directory =
      Except.ok ⟨setFile fs (targetPath remote url directory) (remote url).content,
        targetPath remote url directory, [url]⟩ := by
  rw [download_file_none_run remote fs url directory hok hname]
  rcases hmiss with hnone | ⟨stored, hsome, hsz⟩
  · rw [hnone]
  · rw [hsome]
    simp [hsz]

theorem download_file_skip_run (remote : String → Response) (fs : FS)
    (url : String) (directory : Option String) (stored : List Nat)
    (hok : (remote url).httpError = false)
    (hname : multiPart (computedName remote url) = false)
    (hsome : lookupFile fs (targetPath remote url directory) = some stored)
    (hsz : stored.length = (remote url).contentLength.getD 0) :
    download_file remote fs url none directory =
      Except.ok ⟨fs, targetPath remote url directory, []⟩ := by
  rw [download_file_none_run remote fs url directory hok hname]
  rw [hsome]
  simp [hsz]

/-- C3: whenever the target file does not exist, or exists with a size
different from the reported `Content-Length`, `download_file` (with the
filename computed from the url) retrieves the whole file again with a
single plain `urlretrieve` GET — the model has no Range/partial request —
saves it under the computed filename, returns the resolved path, and
touches no other file. -/
theorem download_file_fresh_or_mismatch (remote : String → Response) (fs : FS)
    (url : String) (directory : Option String)
    (hok : (remote url).httpError = false)
    (hname : multiPart (computedName remote url) = false)
    (hfresh : lookupFile fs (targetPath remote url directory) = none ∨
      ∃ stored, lookupFile fs (targetPath remote url directory) = some stored ∧
        stored.length ≠ (remote url).contentLength.getD 0) :
    ∃ r, download_file remote fs url none directory = Except.ok r ∧
      r.retrieved = [url] ∧
      r.path = targetPath remote url directory ∧
      lookupFile r.fs (targetPath remote url directory) = some (remote url).content ∧
      ∀ p, p ≠ targetPath remote url directory →
        lookupFile r.fs p = lookupFile fs p := by
  rw [download_file_get_run remote fs url directory hok hname hfresh]
  exact ⟨_, rfl, rfl, rfl,
    lookupFile_setFile_self fs (targetPath remote url directory) (remote url).content,
    fun p hp => lookupFile_setFile_other fs (targetPath remote url directory) p
      (remote url).content hp⟩

/-- Witness for C3: a concrete fresh download (empty filesystem, header
filename `file.bin`, directory `dir`) retrieves the body with one GET,
stores it at `dir/file.bin` and returns that path. -/
theorem download_file_fresh_or_mismatch_witness :
    ∃ r, download_file (fun _ => ⟨[1, 2, 3], some "file.bin", some 3, false⟩)
        ⟨[]⟩ "http://h/x" none (some "dir") = Except.ok r ∧
      r.retrieved = ["http://h/x"] ∧
      r.path = targetPath (fun _ => ⟨[1, 2, 3], some "file.bin", some 3, false⟩)
        "http://h/x" (some "dir") ∧
      lookupFile r.fs (targetPath (fun _ => ⟨[1, 2, 3], some "file.bin", some 3, false⟩)
        "http://h/x" (some "dir")) = some [1, 2, 3] ∧
      ∀ p, p ≠ targetPath (fun _ => ⟨[1, 2, 3], some "file.bin", some 3, false⟩)
          "http://h/x" (some "dir") →
        lookupFile r.fs p = lookupFile ⟨[]⟩ p :=
  download_file_fresh_or_mismatch _ _ _ _ rfl (by decide) (Or.inl rfl)

/-- Counterexample to C4 as stated: with both target files already cached at
sizes matching their `Content-Length`s, `download_ir_model` performs no
`urlretrieve` at all (`retrieved = []`), so it does not download exactly two
files for every `model_xml_url`; it still returns the xml path. -/
theorem download_ir_model_cached_counterexample :
    download_ir_model
        (fun u => if u = "m/model.xml" then ⟨[1, 2], none, some 2, false⟩
          else ⟨[3, 4, 5], none, some 3, false⟩)
        ⟨[("model.xml", [9, 9]), ("model.bin", [8, 8, 8])]⟩ "m/model.xml" none =
      Except.ok ⟨⟨[("model.xml", [9, 9]), ("model.bin", [8, 8, 8])]⟩,
        "model.xml", []⟩ := by
  decide

/-- C4 (amended): for every `model_xml_url` whose two target files are not
already present locally, `download_ir_model` downloads exactly two files —
the xml at the url and the bin at the url with its last four characters
replaced by `".bin"` — into the same destination folder, and returns the
resolved local path of the xml file. -/
theorem download_ir_model_fresh (remote : String → Response) (fs : FS)
    (url : String) (dir : Option String)
    (hok1 : (remote url).httpError = false)
    (hok2 : (remote (binUrlOf url)).httpError = false)
    (hn1 : multiPart (computedName remote url) = false)
    (hn2 : multiPart (computedName remote (binUrlOf url)) = false)
    (hdistinct : targetPath remote (binUrlOf url) dir ≠ targetPath remote url dir)
    (hf1 : lookupFile fs (targetPath remote url dir) = none)
    (hf2 : lookupFile fs (targetPath remote (binUrlOf url) dir) = none) :
    ∃ r, download_ir_model remote fs url dir = Except.ok r ∧
      r.retrieved = [url, binUrlOf url] ∧
      r.path = targetPath remote url dir ∧
      lookupFile r.fs (targetPath remote url dir) = some (remote url).content ∧
      lookupFile r.fs (targetPath remote (binUrlOf url) dir) =
        some (remote (binUrlOf url)).content ∧
      ∀ p, p ≠ targetPath remote url dir → p ≠ targetPath remote (binUrlOf url) dir →
        lookupFile r.fs p = lookupFile fs p := by
  have h1 : download_file remote fs url none dir =
      Except.ok ⟨setFile fs (targetPath remote url dir) (remote url).content,
        targetPath remote url dir, [url]⟩ :=
    download_file_get_run remote fs url dir hok1 hn1 (Or.inl hf1)
  have h2 : download_file remote (setFile fs (targetPath remote url dir)
        (remote url).content) (binUrlOf url) none dir =
      Except.ok ⟨setFile (setFile fs (targetPath remote url dir) (remote url).content)
          (targetPath remote (binUrlOf url) dir) (remote (binUrlOf url)).content,
        targetPath remote (binUrlOf url) dir, [binUrlOf url]⟩ := by
    refine download_file_get_run remote _ (binUrlOf url) dir hok2 hn2 (Or.inl ?_)
    rw [lookupFile_setFile_other fs (targetPath remote url dir)
      (targetPath remote (binUrlOf url) dir) (remote url).content hdistinct]
    exact hf2
  simp only [download_ir_model, h1, h2]
  refine ⟨_, rfl, rfl, rfl, ?_, ?_, ?_⟩
  · rw [lookupFile_setFile_other _ (targetPath remote (binUrlOf url) dir)
      (targetPath remote url dir) (remote (binUrlOf url)).content
      fun hx => hdistinct hx.symm]
    exact lookupFile_setFile_self fs (targetPath remote url dir) (remote url).content
  · exact lookupFile_setFile_self _ (targetPath remote (binUrlOf url) dir)
      (remote (binUrlOf url)).content
  · intro p hp1 hp2
    rw [lookupFile_setFile_other _ (targetPath remote (binUrlOf url) dir) p
      (remote (binUrlOf url)).content hp2]
    exact lookupFile_setFile_other fs (targetPath remote url dir) p
      (remote url).content hp1

/-- Witness for C4: a concrete fresh run downloads the xml then the bin and
returns the xml path. -/
theorem download_ir_model_fresh_witness :
    ∃ r, download_ir_model
        (fun u => if u = "m/a.xml" then ⟨[1], none, some 1, false⟩
          else ⟨[2, 2], none, some 2, false⟩) ⟨[]⟩ "m/a.xml" none = Except.ok r ∧
      r.retrieved = ["m/a.xml", binUrlOf "m/a.xml"] ∧
      r.path = targetPath (fun u => if u = "m/a.xml" then ⟨[1], none, some 1, false⟩
          else ⟨[2, 2], none, some 2, false⟩) "m/a.xml" none ∧
      lookupFile r.fs (targetPath (fun u => if u = "m/a.xml" then ⟨[1], none, some 1, false⟩
          else ⟨[2, 2], none, some 2, false⟩) "m/a.xml" none) = some [1] ∧
      lookupFile r.fs (targetPath (fun u => if u = "m/a.xml" then ⟨[1], none, some 1, false⟩
          else ⟨[2, 2], none, some 2, false⟩) (binUrlOf "m/a.xml") none) = some [2, 2] ∧
      ∀ p, p ≠ targetPath (fun u => if u = "m/a.xml" then ⟨[1], none, some 1, false⟩
          else ⟨[2, 2], none, some 2, false⟩) "m/a.xml" none →
        p ≠ targetPath (fun u => if u = "m/a.xml" then ⟨[1], none, some 1, false⟩
          else ⟨[2, 2], none, some 2, false⟩) (binUrlOf "m/a.xml") none →
        lookupFile r.fs p = lookupFile ⟨[]⟩ p :=
  download_ir_model_fresh _ _ _ _ rfl rfl (by decide) (by decide) (by decide) rfl rfl

theorem except_ok_bind {α β ε : Type} (a : α) (f : α → Except ε β) :
    (Except.ok a >>= f) = f a := rfl

theorem except_error_bind {α β ε : Type} (e : ε) (f : α → Except ε β) :
    ((Except.error e : Except ε α) >>= f) = Except.error e := rfl

/-- Counterexample to C8 as stated: an array of shape `(1, 3)` passes both
checks (rank 2, one distinct value, three colormap rows), so the claim says
the call returns normally; but the squeeze leaves a rank-1 array and
`np.zeros((result.shape[0], result.shape[1], 3))` raises `IndexError`, not a
normal return. -/
theorem segmentation_shape_one_w_counterexample :
    segmentation_map_to_image ⟨[1, 3], [0, 0, 0]⟩
        [(1, 1, 1), (2, 2, 2), (3, 3, 3)] false = Except.error PyErr.indexError ∧
    ¬(([1, 3] : List Nat).length ≠ 2 ∧ ([1, 3] : List Nat).headD 0 ≠ 1) ∧
    ([0, 0, 0] : List Nat).dedup.length ≤
      ([(1, 1, 1), (2, 2, 2), (3, 3, 3)] : List Pixel).length :=
  ⟨by decide, by decide, by decide⟩

/-- C8 (amended): with a nonempty shape, `segmentation_map_to_image` raises
`ValueError` exactly when (the rank is not 2 and the first dimension is not
1) or the number of distinct values exceeds the number of colormap rows; any
array whose first dimension equals 1 passes the shape check regardless of
rank; and it returns normally on the other inputs of shape `(H, W)` with
`H ≠ 1` or `(1, H, W)` (a rank-2 array with first dimension 1 is squeezed to
rank 1 and fails later with `IndexError`, see the counterexample). -/
theorem segmentation_error_spec (result : NDArray) (colormap : List Pixel)
    (remove_holes : Bool) (hrank : result.shape ≠ []) :
    (segmentation_map_to_image result colormap remove_holes =
        Except.error PyErr.valueError ↔
      (result.shape.length ≠ 2 ∧ result.shape.headD 0 ≠ 1) ∨
        result.data.dedup.length > colormap.length) ∧
    (result.shape.headD 0 = 1 → shapeCheck result.shape = Except.ok ()) ∧
    (∀ h w, (result.shape = [h, w] ∧ h ≠ 1) ∨ result.shape = [1, h, w] →
      result.data.dedup.length ≤ colormap.length →
      ∃ img, segmentation_map_to_image result colormap remove_holes =
        Except.ok img) := by
  obtain ⟨shape, data⟩ := result
  match shape, hrank with
  | s0 :: rest, _ =>
  simp only at hrank ⊢
  by_cases hlen : (s0 :: rest).length = 2
  · have hsc : shapeCheck (s0 :: rest) = Except.ok () := by
      unfold shapeCheck
      rw [if_pos hlen]
    by_cases hd : data.dedup.length > colormap.length
    · refine ⟨?_, fun _ => hsc, ?_⟩
      · simp [segmentation_map_to_image, hsc, except_ok_bind, except_error_bind, hd, hlen]
      · intro h w _ hle
        omega
    · obtain ⟨s1, rest1⟩ : ∃ s1, rest = [s1] := by
        cases rest with
        | nil => simp at hlen
        | cons a t =>
            cases t with
            | nil => exact ⟨a, rfl⟩
            | cons b u => simp at hlen
      subst rest1
      by_cases hs0 : s0 = 1
      · subst hs0
        refine ⟨?_, fun _ => hsc, ?_⟩
        · simp [segmentation_map_to_image, hsc, except_ok_bind, except_error_bind, hd]
        · intro h w hsh _
          rcases hsh with ⟨heq, hne⟩ | heq <;> simp_all
      · refine ⟨?_, fun h1 => absurd h1 hs0, ?_⟩
        · simp [segmentation_map_to_image, hsc, except_ok_bind, except_error_bind, hd, hs0]
        · intro h w hsh _
          have hrun : segmentation_map_to_image ⟨[s0, s1], data⟩ colormap remove_holes =
              Except.ok (segLoop (modeOf remove_holes) s0 s1
                (toMatrix s0 s1 (data.map (· % 256))) colormap) := by
            simp [segmentation_map_to_image, hsc, except_ok_bind, except_error_bind, hd, hs0]
          exact ⟨_, hrun⟩
  · have hhead : (s0 :: rest).head? = some s0 := rfl
    by_cases hs0 : s0 = 1
    · subst hs0
      have hsc : shapeCheck (1 :: rest) = Except.ok () := by
        unfold shapeCheck
        rw [if_neg hlen]
        simp
      refine ⟨?_, fun _ => hsc, ?_⟩
      · by_cases hd : data.dedup.length > colormap.length
        · simp [segmentation_map_to_image, hsc, except_ok_bind, except_error_bind, hd, hlen]
        · have hnotval : segmentation_map_to_image ⟨1 :: rest, data⟩ colormap
              remove_holes ≠ Except.error PyErr.valueError := by
            simp only [segmentation_map_to_image, hsc, except_ok_bind, except_error_bind, if_neg hd]
            rcases rest with _ | ⟨r1, _ | ⟨r2, _ | rest3⟩⟩ <;> simp
          constructor
          · intro hx
            exact absurd hx hnotval
          · intro hx
            rcases hx with ⟨h1, h2⟩ | h2
            · simp at h2
            · omega
      · intro h w hsh hle
        have hd : ¬data.dedup.length > colormap.length := by omega
        rcases hsh with ⟨heq, hne⟩ | heq
        · exact absurd (by rw [heq]; rfl) hlen
        · have hrest : rest = [h, w] := by injection heq
          subst hrest
          have hrun : segmentation_map_to_image ⟨[1, h, w], data⟩ colormap
              remove_holes = Except.ok (segLoop (modeOf remove_holes) h w
                (toMatrix h w (data.map (· % 256))) colormap) := by
            simp [segmentation_map_to_image, hsc, except_ok_bind, except_error_bind, hd]
          exact ⟨_, hrun⟩
    · have hsc : shapeCheck (s0 :: rest) = Except.error PyErr.valueError := by
        unfold shapeCheck
        rw [if_neg hlen]
        simp [hs0]
      refine ⟨?_, fun h1 => absurd h1 hs0, ?_⟩
      · constructor
        · intro _
          exact Or.inl ⟨hlen, by simpa using hs0⟩
        · intro _
          simp [segmentation_map_to_image, hsc, except_ok_bind, except_error_bind]
      · intro h w hsh _
        rcases hsh with ⟨heq, hne⟩ | heq
        · rw [heq] at hlen
          simp at hlen
        · injection heq with h1 _
          exact absurd h1 hs0

/-- Witness for C8: a concrete `(2, 2)` result with two classes and a
two-row colormap passes both checks and returns normally. -/
theorem segmentation_error_spec_witness :
    ∃ img, segmentation_map_to_image ⟨[2, 2], [0, 1, 1, 0]⟩
        [(1, 1, 1), (2, 2, 2)] false = Except.ok img :=
  (segmentation_error_spec ⟨[2, 2], [0, 1, 1, 0]⟩ [(1, 1, 1), (2, 2, 2)] false
      (by decide)).2.2 2 2 (Or.inl ⟨rfl, by decide⟩) (by decide)

theorem getCell_buildGrid {α : Type} (h w : Nat) (f : Nat → Nat → α) (d : α)
    (i j : Nat) (hi : i < h) (hj : j < w) :
    getCell (buildGrid h w f) d i j = f i j := by
  have hrow : (buildGrid h w f).getD i [] = (List.range w).map fun b => f i b := by
    unfold buildGrid
    rw [List.getD_eq_getElem?_getD, List.getElem?_map, List.getElem?_range hi]
    rfl
  unfold getCell
  rw [hrow, List.getD_eq_getElem?_getD, List.getElem?_map, List.getElem?_range hj]
  rfl

theorem buildGrid_congr {α : Type} (h w : Nat) (f g : Nat → Nat → α)
    (H : ∀ a, a < h → ∀ b, b < w → f a b = g a b) :
    buildGrid h w f = buildGrid h w g := by
  unfold buildGrid
  refine List.map_congr_left fun a ha => ?_
  refine List.map_congr_left fun b hb => ?_
  exact H a (List.mem_range.mp ha) b (List.mem_range.mp hb)

theorem find?_congr_on {α : Type} (l : List α) (p q : α → Bool)
    (H : ∀ x ∈ l, p x = q x) : l.find? p = l.find? q := by
  induction l with
  | nil => rfl
  | cons x t ih =>
      have hpx := H x (List.mem_cons_self x t)
      cases hqx : q x with
      | true =>
          rw [List.find?_cons_of_pos _ (hpx.trans hqx),
            List.find?_cons_of_pos _ hqx]
      | false =>
          rw [List.find?_cons_of_neg _ (by rw [hpx, hqx]; simp),
            List.find?_cons_of_neg _ (by rw [hqx]; simp)]
          exact ih fun y hy => H y (List.mem_cons_of_mem x hy)

theorem enum_fst_lt (l : List Pixel) (p : Nat × Pixel) (hp : p ∈ l.enum) :
    p.1 < l.length := by
  obtain ⟨a, b⟩ := p
  rw [List.enum_eq_zip_range] at hp
  exact List.mem_range.mp (List.of_mem_zip hp).1

theorem find?_enum_reverse (l : List Pixel) (c : Nat) (hc : c < l.length) :
    l.enum.reverse.find? (fun p => decide (c = p.1)) =
      some (c, l.getD c (0, 0, 0)) := by
  induction l using List.reverseRecOn with
  | nil => simp at hc
  | append_singleton t x ih =>
      rw [List.enum_append,
        show List.enumFrom t.length [x] = [(t.length, x)] from rfl,
        List.reverse_append,
        show ([(t.length, x)] : List (Nat × Pixel)).reverse = [(t.length, x)]
          from rfl]
      by_cases hcl : c = t.length
      · subst hcl
        rw [show ([(t.length, x)] : List (Nat × Pixel)) ++ t.enum.reverse =
          (t.length, x) :: t.enum.reverse from rfl]
        rw [List.find?_cons_of_pos _ (by simp)]
        rw [List.getD_append_right t [x] _ t.length le_rfl]
        simp
      · have hc' : c < t.length := by
          rw [List.length_append] at hc
          simp only [List.length_cons, List.length_nil] at hc
          omega
        rw [show ([(t.length, x)] : List (Nat × Pixel)) ++ t.enum.reverse =
          (t.length, x) :: t.enum.reverse from rfl]
        rw [List.find?_cons_of_neg _ (by simp [hcl])]
        rw [ih hc', List.getD_append t [x] _ c hc']

theorem segFold_buildGrid (mode : ContourMode) (h w : Nat)
    (result : List (List Nat)) (l : List (Nat × Pixel)) (f : Nat → Nat → Pixel) :
    l.foldl (paintStep mode h w result) (buildGrid h w f) =
      buildGrid h w fun i j =>
        match l.reverse.find? (fun p =>
            getCell (contourFill mode h w (classMask h w result p.1)) false i j) with
        | some p => storeColor p.2
        | none => f i j := by
  induction l generalizing f with
  | nil => rfl
  | cons x t ih =>
      rw [List.foldl_cons]
      have hps : paintStep mode h w result (buildGrid h w f) x =
          buildGrid h w fun a b =>
            if getCell (contourFill mode h w (classMask h w result x.1)) false a b
            then storeColor x.2 else f a b := by
        unfold paintStep overwrite
        exact buildGrid_congr h w _ _ fun a ha b hb => by
          rw [getCell_buildGrid h w f (0, 0, 0) a b ha hb]
      rw [hps, ih]
      refine buildGrid_congr h w _ _ fun a ha b hb => ?_
      rw [List.reverse_cons, List.find?_append]
      cases hfind : t.reverse.find? (fun p =>
          getCell (contourFill mode h w (classMask h w result p.1)) false a b) with
      | some p => simp [Option.or]
      | none =>
          cases hpx : getCell (contourFill mode h w (classMask h w result x.1))
              false a b with
          | true =>
              rw [List.find?_cons_of_pos _ (by exact hpx)]
              simp [Option.or]
          | false =>
              rw [List.find?_cons_of_neg _ (by simp [hpx])]
              simp [Option.or]

/-- C7: `segmentation_map_to_image` builds its output by the single
`for label_index, color in enumerate(colormap)` loop, in increasing
class-index order: each step forms the binary mask `result == label_index`,
detects its contours in the mode selected from `remove_holes`
(`RETR_EXTERNAL` when true, the full `RETR_TREE` hierarchy otherwise, both
covering the same filled region), and fills them with the class colour over
the running image.  Consequently each output pixel carries the colour of the
last — largest — class index whose filled contours cover it, and stays black
when none does. -/
theorem segmentation_loop_structure (data : List Nat) (h w : Nat)
    (colormap : List Pixel) (remove_holes : Bool) (hne : h ≠ 1)
    (hd : data.dedup.length ≤ colormap.length) :
    ∃ img, segmentation_map_to_image ⟨[h, w], data⟩ colormap remove_holes =
        Except.ok img ∧
      ∀ i j, i < h → j < w →
        getCell img (0, 0, 0) i j =
          match colormap.enum.reverse.find? (fun p =>
              getCell (contourFill (modeOf remove_holes) h w
                (classMask h w (toMatrix h w (data.map (· % 256))) p.1))
                false i j) with
          | some p => storeColor p.2
          | none => (0, 0, 0) := by
  have hsc : shapeCheck [h, w] = Except.ok () := by
    simp [shapeCheck]
  have hd' : ¬data.dedup.length > colormap.length := by omega
  have hrun : segmentation_map_to_image ⟨[h, w], data⟩ colormap remove_holes =
      Except.ok (segLoop (modeOf remove_holes) h w
        (toMatrix h w (data.map (· % 256))) colormap) := by
    simp [segmentation_map_to_image, hsc, except_ok_bind, hd', hne]
  refine ⟨_, hrun, fun i j hi hj => ?_⟩
  unfold segLoop zeroImage
  rw [segFold_buildGrid]
  rw [getCell_buildGrid h w _ (0, 0, 0) i j hi hj]

/-- Witness for C7: the loop characterisation evaluated on a concrete 2×2
two-class result. -/
theorem segmentation_loop_structure_witness :
    ∃ img, segmentation_map_to_image ⟨[2, 2], [0, 1, 0, 1]⟩
        [(1, 2, 3), (4, 5, 6)] false = Except.ok img ∧
      ∀ i j, i < 2 → j < 2 →
        getCell img (0, 0, 0) i j =
          match ([(1, 2, 3), (4, 5, 6)] : List Pixel).enum.reverse.find? (fun p =>
              getCell (contourFill (modeOf false) 2 2
                (classMask 2 2 (toMatrix 2 2
                  (([0, 1, 0, 1] : List Nat).map (· % 256))) p.1))
                false i j) with
          | some p => storeColor p.2
          | none => (0, 0, 0) :=
  segmentation_loop_structure [0, 1, 0, 1] 2 2 [(1, 2, 3), (4, 5, 6)] false
    (by decide) (by decide)

theorem dedup_length_le (l : List Nat) (n : Nat) (hl : ∀ x ∈ l, x < n) :
    l.dedup.length ≤ n := by
  have h1 : l.toFinset ⊆ Finset.range n := fun x hx =>
    Finset.mem_range.mpr (hl x (List.mem_toFinset.mp hx))
  have h2 := Finset.card_le_card h1
  rwa [List.card_toFinset, Finset.card_range] at h2

/-- Counterexample to C1 as stated: a 3×3 result whose class-1 ring encloses
a class-0 centre pixel.  All entries are class indices below the two colormap
rows, yet the contour fill paints the enclosed centre with class 1's colour
(class 1 is drawn after class 0 and its filled outer contour covers the
hole), so the returned image is not the per-pixel lookup-table image. -/
theorem segmentation_lut_counterexample :
    (∀ x ∈ ([1, 1, 1, 1, 0, 1, 1, 1, 1] : List Nat), x < 2) ∧
    (segmentation_map_to_image ⟨[3, 3], [1, 1, 1, 1, 0, 1, 1, 1, 1]⟩
        [(10, 10, 10), (20, 20, 20)] false).toOption.isSome = true ∧
    (segmentation_map_to_image ⟨[3, 3], [1, 1, 1, 1, 0, 1, 1, 1, 1]⟩
        [(10, 10, 10), (20, 20, 20)] false).toOption ≠
      some (lutImage 3 3 (toMatrix 3 3 [1, 1, 1, 1, 0, 1, 1, 1, 1])
        [(10, 10, 10), (20, 20, 20)]) :=
  ⟨by decide, by decide, by decide⟩

/-- C1 (amended): for a result of shape `(H, W)` (with `H ≠ 1`, else the
squeeze bug of C8 bites) or `(1, H, W)` whose entries are class indices
below the number of colormap rows, with at most 256 byte-valued colormap
rows, and in which no class mask has holes (each class's filled-contour
cover equals its own pixel mask), `segmentation_map_to_image` equals the
reference per-pixel colour-lookup-table mapping.  Without the no-holes
hypothesis the equality fails: see the counterexample, where an enclosed
pixel of a lower class is repainted by the enclosing class. -/
theorem segmentation_lut_refinement (shape data : List Nat) (h w : Nat)
    (colormap : List Pixel) (remove_holes : Bool)
    (hshape : (shape = [h, w] ∧ h ≠ 1) ∨ shape = [1, h, w])
    (hsize : data.length = h * w)
    (hvals : ∀ x ∈ data, x < colormap.length)
    (hrows : colormap.length ≤ 256)
    (hbytes : ∀ c ∈ colormap, c.1 ≤ 255 ∧ c.2.1 ≤ 255 ∧ c.2.2 ≤ 255)
    (hholes : ∀ c, c < colormap.length →
      contourFill (modeOf remove_holes) h w
          (classMask h w (toMatrix h w data) c) =
        classMask h w (toMatrix h w data) c) :
    segmentation_map_to_image ⟨shape, data⟩ colormap remove_holes =
      Except.ok (lutImage h w (toMatrix h w data) colormap) := by
  have hmap : data.map (· % 256) = data := by
    have h1 : data.map (· % 256) = data.map fun x => x :=
      List.map_congr_left fun x hx =>
        Nat.mod_eq_of_lt (lt_of_lt_of_le (hvals x hx) hrows)
    rw [h1, List.map_id']
  have hd' : ¬data.dedup.length > colormap.length := by
    have := dedup_length_le data colormap.length hvals
    omega
  have hrun : segmentation_map_to_image ⟨shape, data⟩ colormap remove_holes =
      Except.ok (segLoop (modeOf remove_holes) h w
        (toMatrix h w data) colormap) := by
    rcases hshape with ⟨heq, hne⟩ | heq
    · subst heq
      have hsc : shapeCheck [h, w] = Except.ok () := by
        simp [shapeCheck]
      simp [segmentation_map_to_image, hsc, except_ok_bind, hd', hne, hmap]
    · subst heq
      have hsc : shapeCheck [1, h, w] = Except.ok () := by
        simp [shapeCheck]
      simp [segmentation_map_to_image, hsc, except_ok_bind, hd', hmap]
  rw [hrun]
  refine congrArg Except.ok ?_
  unfold segLoop zeroImage lutImage
  rw [segFold_buildGrid]
  refine buildGrid_congr h w _ _ fun a ha b hb => ?_
  have hcell : getCell (toMatrix h w data) 0 a b = data.getD (a * w + b) 0 := by
    unfold toMatrix
    exact getCell_buildGrid h w _ 0 a b ha hb
  have hij : a * w + b < data.length := by
    rw [hsize]
    calc a * w + b < a * w + w := by omega
    _ = (a + 1) * w := by ring
    _ ≤ h * w := Nat.mul_le_mul_right w (by omega)
  have hmem : data.getD (a * w + b) 0 ∈ data := by
    rw [List.getD_eq_getElem data 0 hij]
    exact List.getElem_mem hij
  have hlt : getCell (toMatrix h w data) 0 a b < colormap.length := by
    rw [hcell]
    exact hvals _ hmem
  have hpred : ∀ p ∈ colormap.enum.reverse,
      (getCell (contourFill (modeOf remove_holes) h w
        (classMask h w (toMatrix h w data) p.1)) false a b) =
      decide (getCell (toMatrix h w data) 0 a b = p.1) := by
    intro p hp
    have hplt : p.1 < colormap.length :=
      enum_fst_lt colormap p (List.mem_reverse.mp hp)
    rw [hholes p.1 hplt]
    unfold classMask
    rw [getCell_buildGrid h w _ false a b ha hb]
  rw [find?_congr_on _ _ _ hpred, find?_enum_reverse colormap _ hlt]
  have hmemc : colormap.getD (getCell (toMatrix h w data) 0 a b) (0, 0, 0) ∈
      colormap := by
    rw [List.getD_eq_getElem colormap _ hlt]
    exact List.getElem_mem hlt
  obtain ⟨h1, h2, h3⟩ := hbytes _ hmemc
  show storeColor _ = _
  generalize hq : colormap.getD (getCell (toMatrix h w data) 0 a b) (0, 0, 0) = q
  rw [hq] at h1 h2 h3
  obtain ⟨u, v, z⟩ := q
  unfold storeColor
  simp only at h1 h2 h3
  simp [Nat.min_eq_left h1, Nat.min_eq_left h2, Nat.min_eq_left h3]

/-- Witness for C1: the amended refinement evaluated on a concrete 2×2
hole-free two-class result. -/
theorem segmentation_lut_refinement_witness :
    segmentation_map_to_image ⟨[2, 2], [0, 1, 0, 1]⟩ [(0, 0, 0), (255, 0, 0)]
        false =
      Except.ok (lutImage 2 2 (toMatrix 2 2 [0, 1, 0, 1])
        [(0, 0, 0), (255, 0, 0)]) :=
  segmentation_lut_refinement [2, 2] [0, 1, 0, 1] 2 2 [(0, 0, 0), (255, 0, 0)]
    false (Or.inl ⟨rfl, by decide⟩) (by decide) (by decide) (by decide)
    (by decide) (by decide)
